import Mathlib

/-!
Verification of the download-and-normalize pipeline of the political-speech
corpus project.  The Python sources under `packages/data_collection` and
`packages/preprocessing` are shallowly embedded: strings become `List Char`,
the filesystem becomes an association list threaded through the functions,
HTTP and the NLTK tokenizers become explicit oracles, and uncaught Python
exceptions become `Except` errors.
-/

set_option maxHeartbeats 1000000

namespace Spec2Proof

/-- Text is modelled as a list of characters (Python `str`). -/
abbrev Text := List Char

/-- ASCII whitespace, the characters matched by `\s` / `str.split()` /
`str.strip()` on the ASCII inputs this development evaluates. -/
def isSpaceChar (c : Char) : Bool :=
  c = ' ' || c = '\t' || c = '\n' || c = '\r' || c = '\x0b' || c = '\x0c'

/-- Regex `\w` over ASCII: letters, digits, underscore. -/
def isWordChar (c : Char) : Bool :=
  c.isAlpha || c.isDigit || c = '_'

/-- ASCII alphanumeric, the class kept by `cleaner.special_chars`. -/
def isAlnumAscii (c : Char) : Bool :=
  c.isAlpha || c.isDigit

/-- Does `pat` occur at the head of `s` (case-sensitive)? -/
def startsWithL : Text → Text → Bool
  | [], _ => true
  | _ :: _, [] => false
  | p :: ps, c :: cs => p == c && startsWithL ps cs

/-- Does `pat` occur at the head of `s`, comparing case-insensitively? -/
def startsWithCI : Text → Text → Bool
  | [], _ => true
  | _ :: _, [] => false
  | p :: ps, c :: cs => p.toLower == c.toLower && startsWithCI ps cs

/-- Does `pat` occur anywhere in `s` (Python `pat in s`)? -/
def containsL (s pat : Text) : Bool :=
  match s with
  | [] => startsWithL pat []
  | c :: cs => startsWithL pat (c :: cs) || containsL cs pat

/-- Index of the leftmost case-insensitive occurrence of `pat`. -/
def findCI (pat : Text) : Text → Option Nat
  | [] => if startsWithCI pat [] then some 0 else none
  | c :: cs =>
    if startsWithCI pat (c :: cs) then some 0
    else (findCI pat cs).map (· + 1)

/-- Fuelled worker for `replaceAll`; the fuel is the length of the text, which
bounds the number of scanning steps. -/
def replaceAllGo (pat repl : Text) : Nat → Text → Text
  | 0, s => s
  | _ + 1, [] => []
  | fuel + 1, c :: cs =>
    if !pat.isEmpty && startsWithL pat (c :: cs) then
      repl ++ replaceAllGo pat repl fuel (List.drop (pat.length - 1) cs)
    else
      c :: replaceAllGo pat repl fuel cs

/-- Replace every (leftmost, non-overlapping) occurrence of the literal `pat`
by `repl`, the semantics of `re.sub` on a pattern with no metacharacters. -/
def replaceAll (pat repl s : Text) : Text :=
  replaceAllGo pat repl s.length s

/-- Python `str.strip()`: drop whitespace at both ends. -/
def stripL (s : Text) : Text :=
  ((s.dropWhile isSpaceChar).reverse.dropWhile isSpaceChar).reverse

/-- Fuelled worker for `splitWs`. -/
def splitWsGo : Nat → Text → List Text
  | 0, _ => []
  | _ + 1, [] => []
  | fuel + 1, c :: cs =>
    if isSpaceChar c then splitWsGo fuel cs
    else (c :: cs.takeWhile (fun d => !isSpaceChar d)) ::
      splitWsGo fuel (cs.dropWhile (fun d => !isSpaceChar d))

/-- Python `str.split()` with no argument: split on whitespace runs, dropping
empty fields. -/
def splitWs (s : Text) : List Text :=
  splitWsGo s.length s

/-- Python `"\n".join`-style joining. -/
def joinSep (sep : Text) (xs : List Text) : Text :=
  List.intercalate sep xs

/-- Python `text.split(sep)` for a one-character separator. -/
def splitOnChar (sep : Char) : Text → List Text
  | [] => [[]]
  | c :: cs =>
    let r := splitOnChar sep cs
    if c == sep then [] :: r
    else
      match r with
      | [] => [[c]]
      | h :: t => (c :: h) :: t

/-! ## SpeechCleaner (packages/preprocessing/preprocessing/cleaner.py) -/

/-- Length consumed by the regex `https?://\S+` when it matches at the head of
`s` (`None` if it does not match there). -/
def urlMatchLen (s : Text) : Option Nat :=
  if startsWithL "https://".data s then
    let n := ((List.drop 8 s).takeWhile (fun c => !isSpaceChar c)).length
    if n = 0 then none else some (8 + n)
  else if startsWithL "http://".data s then
    let n := ((List.drop 7 s).takeWhile (fun c => !isSpaceChar c)).length
    if n = 0 then none else some (7 + n)
  else none

/-- Fuelled scanner applying `re.sub(r"https?://\S+", "", text)`. -/
def removeUrlsGo : Nat → Text → Text
  | 0, s => s
  | _ + 1, [] => []
  | fuel + 1, c :: cs =>
    match urlMatchLen (c :: cs) with
    | some k => removeUrlsGo fuel (List.drop (k - 1) cs)
    | none => c :: removeUrlsGo fuel cs

/-- `SpeechCleaner.urls`: `re.sub(r"https?://\S+", "", text)`. -/
def urls (s : Text) : Text :=
  removeUrlsGo s.length s

/-- Is there an `@` in the list that is followed by at least one more
character?  Used to decide whether a non-space run matches `\S+@\S+`. -/
def hasAtWithNext : Text → Bool
  | [] => false
  | [_] => false
  | a :: b :: rest => a == '@' || hasAtWithNext (b :: rest)

/-- Fuelled scanner applying `re.sub(r"\S+@\S+", "", text)`: a maximal
non-space run is deleted entirely when it contains an `@` that has at least
one non-space character on each side. -/
def removeEmailsGo : Nat → Text → Text
  | 0, s => s
  | _ + 1, [] => []
  | fuel + 1, c :: cs =>
    if isSpaceChar c then c :: removeEmailsGo fuel cs
    else
      let run := (c :: cs).takeWhile (fun d => !isSpaceChar d)
      if hasAtWithNext (run.drop 1) then
        removeEmailsGo fuel (List.drop (run.length - 1) cs)
      else c :: removeEmailsGo fuel cs

/-- `SpeechCleaner.emails`: `re.sub(r"\S+@\S+", "", text)`. -/
def emails (s : Text) : Text :=
  removeEmailsGo s.length s

/-- `SpeechCleaner.special_chars`: `re.sub(r"[^a-zA-Z0-9\s]", "", text)`. -/
def special_chars (s : Text) : Text :=
  s.filter (fun c => isAlnumAscii c || isSpaceChar c)

/-- `SpeechCleaner.numbers`: `re.sub(r"\d+", "", text)`, which deletes every
digit. -/
def numbers (s : Text) : Text :=
  s.filter (fun c => !c.isDigit)

/-- `SpeechCleaner.make_lowercase`: `text.lower()` (ASCII). -/
def make_lowercase (s : Text) : Text :=
  s.map Char.toLower

/-- Membership in Python `string.punctuation`, which is exactly the ASCII
ranges 33-47, 58-64, 91-96 and 123-126. -/
def isPunctAscii (c : Char) : Bool :=
  let n := c.toNat
  (33 ≤ n && n ≤ 47) || (58 ≤ n && n ≤ 64) || (91 ≤ n && n ≤ 96) ||
    (123 ≤ n && n ≤ 126)

/-- `SpeechCleaner.punctuation`: delete every `string.punctuation`
character via `str.translate`. -/
def punctuation (s : Text) : Text :=
  s.filter (fun c => !isPunctAscii c)

/-- Modelled from the spec: the `CONTRACTIONS` table lives in
`packages/preprocessing/preprocessing/config.py`, which is not among the
provided sources; the spec describes it as "a configured
contraction→expansion table (e.g., don't→do not")", so the table is modelled
with exactly that documented entry. -/
def CONTRACTIONS : List (Text × Text) :=
  [("don't".data, "do not".data)]

/-- Word-character test lifted to an optional character; positions outside
the string count as non-word for `\b`. -/
def isWordOpt : Option Char → Bool
  | none => false
  | some c => isWordChar c

/-- Try the alternation of contraction keys at the current position:
case-insensitive literal match wrapped in `\b( ... )\b`, first listed key
wins.  Returns the matched length and the replacement
`CONTRACTIONS[match.lower()]`. -/
def tryContraction (tbl : List (Text × Text)) (prev : Option Char) (s : Text) :
    Option (Nat × Text) :=
  match tbl with
  | [] => none
  | (k, v) :: rest =>
    if !k.isEmpty && startsWithCI k s &&
        (isWordOpt prev != isWordOpt k.head?) &&
        (isWordOpt k.getLast? != isWordOpt (List.drop k.length s).head?) then
      some (k.length, v)
    else tryContraction rest prev s

/-- Fuelled scanner for `expand_contractions_text`; `prev` is the character
of the original text just before the scanning position, as used by `\b`. -/
def expandGo (tbl : List (Text × Text)) : Nat → Option Char → Text → Text
  | 0, _, s => s
  | _ + 1, _, [] => []
  | fuel + 1, prev, c :: cs =>
    match tryContraction tbl prev (c :: cs) with
    | some (klen, v) =>
      v ++ expandGo tbl fuel ((c :: cs).take klen).getLast?
        (List.drop (klen - 1) cs)
    | none => c :: expandGo tbl fuel (some c) cs

/-- `SpeechCleaner.expand_contractions_text`: case-insensitive whole-word
replacement of the contraction table via
`re.compile(r"\b(" + alternation + r")\b", re.IGNORECASE)`. -/
def expand_contractions_text (s : Text) : Text :=
  expandGo CONTRACTIONS s.length none s

/-- The `replacements` dict of `SpeechCleaner.fix_encoding`, in insertion
order.  The key `â€"` (the letters `â`, `€` followed by an ASCII quote)
occurs twice in the Python source with values `—` and `-`; a Python dict
literal keeps the first position and the last value, hence the single entry
mapping to `-` here. -/
def encodingReplacements : List (Text × Text) :=
  [("â€™".data, "'".data),
   ("â€œ".data, "\"".data),
   ("â€".data, "\"".data),
   ("â€\"".data, "-".data),
   ("Â".data, " ".data),
   ("Ã¢Â€Â™".data, "'".data),
   ("Ã¢Â€Â".data, "\"".data),
   ("â€¦".data, "...".data)]

/-- `SpeechCleaner.fix_encoding`: apply `re.sub(old, new, text)` for each
table entry in dict order (all the patterns are literal). -/
def fix_encoding (s : Text) : Text :=
  encodingReplacements.foldl (fun t pr => replaceAll pr.1 pr.2 t) s

/-- Length matched by `Prev\s*Previous.*?Next.*?Next` (IGNORECASE, DOTALL)
at the head of `s`: the lazy `.*?` pieces reach for the two nearest
following occurrences of `Next`. -/
def matchPrevNextLen (s : Text) : Option Nat :=
  if startsWithCI "prev".data s then
    let r1 := List.drop 4 s
    let w := (r1.takeWhile isSpaceChar).length
    let r2 := List.drop w r1
    if startsWithCI "previous".data r2 then
      let r3 := List.drop 8 r2
      match findCI "next".data r3 with
      | none => none
      | some i =>
        match findCI "next".data (List.drop (i + 4) r3) with
        | none => none
        | some j => some (4 + w + 8 + i + 4 + j + 4)
    else none
  else none

/-- Fuelled scanner for the `Prev ... Next Next` navigation-block removal. -/
def subPrevNextGo : Nat → Text → Text
  | 0, s => s
  | _ + 1, [] => []
  | fuel + 1, c :: cs =>
    match matchPrevNextLen (c :: cs) with
    | some k => subPrevNextGo fuel (List.drop (k - 1) cs)
    | none => c :: subPrevNextGo fuel cs

/-- `re.sub(r"Prev\s*Previous.*?Next.*?Next", "", text, IGNORECASE|DOTALL)`. -/
def subPrevNext (s : Text) : Text :=
  subPrevNextGo s.length s

/-- One footer pattern `<literal>.*$` with IGNORECASE and DOTALL: everything
from the leftmost case-insensitive occurrence of the literal to the end of
the text is removed. -/
def cutFromCI (pat : Text) (s : Text) : Text :=
  match findCI pat s with
  | some i => s.take i
  | none => s

/-- The three footer literals of `remove_boilerplate`. -/
def footerPatterns : List Text :=
  ["Follow me on Twitter".data, "Office Locations".data,
   "Newsletter Signup".data]

/-- The dateline alternation `(?:WASHINGTON|February|March|April)`
(case-sensitive). -/
def datelineWords : List Text :=
  ["WASHINGTON".data, "February".data, "March".data, "April".data]

/-- Length matched at a line-start position by
`^\s*(?:WASHINGTON|February|March|April).*?â€".*?\n` (MULTILINE): optional
whitespace, one of the dateline words, then — within the same line — the
mojibake dash sequence (`â`, `€`, ASCII quote) and the terminating
newline. -/
def matchDatelineLen (s : Text) : Option Nat :=
  let w := (s.takeWhile isSpaceChar).length
  let r := List.drop w s
  match datelineWords.find? (fun k => startsWithL k r) with
  | none => none
  | some k =>
    let r2 := List.drop k.length r
    let lineLen := (r2.takeWhile (fun c => c != '\n')).length
    if containsL (r2.take lineLen) "â€\"".data && lineLen < r2.length then
      some (w + k.length + lineLen + 1)
    else none

/-- Fuelled scanner for the dateline removal; the Boolean records whether the
current position is a line start (where `^` can match), and `count=1` in the
Python call means the text after the first match is kept unchanged. -/
def subDatelineGo : Nat → Bool → Text → Text
  | 0, _, s => s
  | _ + 1, _, [] => []
  | fuel + 1, atStart, c :: cs =>
    if atStart then
      match matchDatelineLen (c :: cs) with
      | some k => List.drop (k - 1) cs
      | none => c :: subDatelineGo fuel (c == '\n') cs
    else c :: subDatelineGo fuel (c == '\n') cs

/-- The `count=1` dateline substitution of `remove_boilerplate`. -/
def subDateline (s : Text) : Text :=
  subDatelineGo s.length true s

/-- Fuelled scanner for `re.sub(r"\n{3,}", "\n\n", text)`. -/
def collapseNLGo : Nat → Text → Text
  | 0, s => s
  | _ + 1, [] => []
  | fuel + 1, c :: cs =>
    if c == '\n' then
      let n := 1 + (cs.takeWhile (fun d => d == '\n')).length
      if 3 ≤ n then
        '\n' :: '\n' :: collapseNLGo fuel (cs.dropWhile (fun d => d == '\n'))
      else c :: collapseNLGo fuel cs
    else c :: collapseNLGo fuel cs

/-- `re.sub(r"\n{3,}", "\n\n", text)`: collapse runs of three or more
newlines to exactly two. -/
def collapseNewlines (s : Text) : Text :=
  collapseNLGo s.length s

/-- `SpeechCleaner.remove_boilerplate`: navigation-block removal, the three
footer cuts, the one-shot dateline removal, newline collapsing and a final
`strip()`. -/
def remove_boilerplate (s : Text) : Text :=
  let s1 := subPrevNext s
  let s2 := footerPatterns.foldl (fun t p => cutFromCI p t) s1
  let s3 := subDateline s2
  stripL (collapseNewlines s3)

/-- The Boolean options of `SpeechCleaner.__init__` that `clean_text`
consults, one field per constructor flag. -/
structure CleanerConfig where
  expandContractionsFlag : Bool
  removeUrlsFlag : Bool
  removeEmailsFlag : Bool
  removeSpecialCharsFlag : Bool
  removeNumbersFlag : Bool
  useLowercaseFlag : Bool
  removePunctuationFlag : Bool
  removeExtraWhitespaceFlag : Bool

/-- The configuration with every optional cleaning step enabled. -/
def allStepsOn : CleanerConfig :=
  ⟨true, true, true, true, true, true, true, true⟩

/-- `SpeechCleaner.clean_text`: the fixed-order pipeline — encoding fix and
boilerplate removal always, then each optional step in the source's order,
ending with `" ".join(text.split())`. -/
def clean_text (cfg : CleanerConfig) (text : Text) : Text :=
  let t1 := fix_encoding text
  let t2 := remove_boilerplate t1
  let t3 := if cfg.expandContractionsFlag then expand_contractions_text t2 else t2
  let t4 := if cfg.removeUrlsFlag then urls t3 else t3
  let t5 := if cfg.removeEmailsFlag then emails t4 else t4
  let t6 := if cfg.removeSpecialCharsFlag then special_chars t5 else t5
  let t7 := if cfg.removeNumbersFlag then numbers t6 else t6
  let t8 := if cfg.useLowercaseFlag then make_lowercase t7 else t7
  let t9 := if cfg.removePunctuationFlag then punctuation t8 else t8
  if cfg.removeExtraWhitespaceFlag then joinSep " ".data (splitWs t9) else t9

/-- The dictionary returned by `SpeechCleaner.get_statistics`.  The two
Python float divisions are modelled exactly over `ℚ`; both are guarded by
`if tokens else 0`, so the guarded branches are exact in either number
system. -/
structure TextStatistics where
  char_count : Nat
  word_count : Nat
  sentence_count : Nat
  avg_word_length : ℚ
  unique_words : Nat
  lexical_diversity : ℚ

/-- `SpeechCleaner.get_statistics`, parametrised by the two external NLTK
tokenizers it calls (`word_tokenize` via `self.tokenize`, and
`nltk.sent_tokenize`).  `len(set(tokens))` is the number of distinct
tokens. -/
def get_statistics (tokenizeF sentTokenizeF : Text → List Text)
    (text : Text) : TextStatistics :=
  let tokens := tokenizeF text
  { char_count := text.length
    word_count := tokens.length
    sentence_count := (sentTokenizeF text).length
    avg_word_length :=
      if tokens.isEmpty then 0
      else ((tokens.map List.length).sum : ℚ) / (tokens.length : ℚ)
    unique_words := tokens.dedup.length
    lexical_diversity :=
      if tokens.isEmpty then 0
      else (tokens.dedup.length : ℚ) / (tokens.length : ℚ) }

/-! ## Parsed HTML and the content extraction of `download_page`
(packages/data_collection/data_collection/downloader.py) -/

mutual
/-- A node of the BeautifulSoup parse tree: an element with tag name,
attributes and children, or a text run. -/
inductive Node where
  | elem (tag : String) (attrs : List (String × String)) (children : NodeList)
  | text (s : String)

/-- A list of sibling nodes (mutual with `Node` so that all tree functions
are structurally recursive). -/
inductive NodeList where
  | nil
  | cons (head : Node) (tail : NodeList)
end

/-- The parsed document is its forest of top-level nodes. -/
abbrev Soup := NodeList

/-- Attribute lookup on an element's attribute list. -/
def attrVal : List (String × String) → String → Option String
  | [], _ => none
  | (a, v) :: rest, k => if a = k then some v else attrVal rest k

/-- Does a node match one `(selector_type, selector_value)` pair of the
`content_selectors` loop?  `id` and `role` compare the attribute value
exactly (`soup.find(id=...)`, `soup.find(attrs={"role": ...})`), `class`
matches any of the element's whitespace-separated classes
(`soup.find(class_=...)`), and `tag` compares the tag name. -/
def matchesSel (selType selVal : String) : Node → Bool
  | .text _ => false
  | .elem tag attrs _ =>
    if selType = "id" then attrVal attrs "id" == some selVal
    else if selType = "class" then
      match attrVal attrs "class" with
      | none => false
      | some cls => (splitWs cls.data).any (fun w => w == selVal.data)
    else if selType = "role" then attrVal attrs "role" == some selVal
    else if selType = "tag" then tag == selVal
    else false

mutual
/-- First node (pre-order, the node itself first) satisfying `p`, as
`soup.find` searches. -/
def findNode (p : Node → Bool) : Node → Option Node
  | .text s => if p (.text s) then some (.text s) else none
  | .elem t a children =>
    if p (.elem t a children) then some (.elem t a children)
    else findList p children

/-- First match of `p` in a forest, in document order. -/
def findList (p : Node → Bool) : NodeList → Option Node
  | .nil => none
  | .cons n rest =>
    match findNode p n with
    | some m => some m
    | none => findList p rest
end

/-- The tags removed unconditionally (`tag.decompose()`) before content
selection. -/
def removedTags : List String :=
  ["script", "style", "nav", "header", "footer", "aside", "form", "button",
   "iframe"]

mutual
/-- Remove a node (and its whole subtree) when its tag is in `bad`. -/
def stripNode (bad : List String) : Node → Option Node
  | .text s => some (.text s)
  | .elem t a c =>
    if bad.contains t then none else some (.elem t a (stripList bad c))

/-- `decompose` over a forest. -/
def stripList (bad : List String) : NodeList → NodeList
  | .nil => .nil
  | .cons n rest =>
    match stripNode bad n with
    | none => stripList bad rest
    | some m => .cons m (stripList bad rest)
end

mutual
/-- The raw text runs of a subtree, in document order. -/
def textFragments : Node → List Text
  | .text s => [s.data]
  | .elem _ _ c => textFragmentsList c

/-- The raw text runs of a forest. -/
def textFragmentsList : NodeList → List Text
  | .nil => []
  | .cons n rest => textFragments n ++ textFragmentsList rest
end

/-- `get_text(separator="\n", strip=True)`: each text run is stripped,
whitespace-only runs are dropped, and the rest are joined with newlines. -/
def getTextStrip (frags : List Text) : Text :=
  joinSep "\n".data ((frags.map stripL).filter (fun f => !f.isEmpty))

/-- `main_content.get_text(separator="\n", strip=True)` for a node. -/
def nodeText (n : Node) : Text :=
  getTextStrip (textFragments n)

/-- `get_text` applied to the whole soup (the `or soup` fallback). -/
def soupText (s : Soup) : Text :=
  getTextStrip (textFragmentsList s)

/-- The `content_selectors` list of `download_page`, in source order. -/
def content_selectors : List (String × String) :=
  [("id", "main-content"), ("id", "content"), ("id", "article"),
   ("class", "entry-content"), ("class", "article-content"),
   ("class", "post-content"), ("class", "article-body"),
   ("role", "main"), ("tag", "article"), ("tag", "main")]

/-- The selector loop: each selector is tried in order and the loop breaks
at the first one that finds a node. -/
def selectContent (soup : Soup) : Option Node :=
  content_selectors.foldl
    (fun acc sel =>
      match acc with
      | some n => some n
      | none => findList (matchesSel sel.1 sel.2) soup)
    none

/-- The newline cleanup after `get_text` in `download_page`: collapse runs
of three or more newlines, split into lines, strip each line, drop empty
lines and re-join with single newlines. -/
def tidyLines (t : Text) : Text :=
  joinSep "\n".data
    (((splitOnChar '\n' (collapseNewlines t)).map stripL).filter
      (fun l => !l.isEmpty))

/-- The extraction pipeline of `download_page` applied to the parsed
response body: decompose the boilerplate tags, run the selector chain, fall
back to `<body>` and then to the whole soup, take the text and tidy the
lines. -/
def extract_page_text (soup : Soup) : Text :=
  let stripped := stripList removedTags soup
  let raw :=
    match selectContent stripped with
    | some n => nodeText n
    | none =>
      match findList (matchesSel "tag" "body") stripped with
      | some b => nodeText b
      | none => soupText stripped
  tidyLines raw

/-! ## SpeechDownloader (packages/data_collection/data_collection/downloader.py) -/

/-- A target file location `os.path.join(output_dir, foldername, filename)`,
kept as its three components. -/
abbrev PathT := String × String × String

/-- The Python exceptions our embedding can raise: an `OSError` from a file
write and the `IndexError` of the output-directory selection. -/
inductive PyErr where
  | ioError
  | indexError
deriving DecidableEq

/-- The filesystem: the files present (newest association first) and the
set of paths on which opening for write raises `OSError`. -/
structure FS where
  files : List (PathT × String)
  badPaths : List PathT

/-- Lookup in an association list, newest entry first. -/
def lookupA : List (PathT × String) → PathT → Option String
  | [], _ => none
  | (k, v) :: rest, p => if p = k then some v else lookupA rest p

/-- `os.path.exists` for a target path. -/
def fsExists (fs : FS) (p : PathT) : Bool :=
  (lookupA fs.files p).isSome

/-- `open(filepath, "w").write(text)`: raises on a bad path, otherwise
overwrites (the new association shadows any older one). -/
def fsWrite (fs : FS) (p : PathT) (content : String) : Except PyErr FS :=
  if fs.badPaths.contains p then .error .ioError
  else .ok { fs with files := (p, content) :: fs.files }

/-- The outcome of one HTTP GET: a status code with the parsed body, or a
transport-level exception. -/
inductive NetResult where
  | success (status : Nat) (body : Soup)
  | transportError

/-- The network oracle: what `requests.get` returns for each URL. -/
structure Env where
  net : String → NetResult

/-- The observable outcome of one `download_page` call: the filesystem
afterwards, the returned Boolean, and whether `requests.get` was invoked. -/
structure PageResult where
  fs : FS
  ok : Bool
  fetched : Bool

/-- `SpeechDownloader.download_page`: skip-if-exists, single GET,
`raise_for_status` (an exception for statuses in [400, 600)), extraction,
write; every exception inside the `try` is caught and turns into `False`. -/
def download_page (env : Env) (fs : FS) (url foldername filename
    outputDir : String) (force : Bool) : PageResult :=
  let filepath : PathT := (outputDir, foldername, filename)
  if !fsExists fs filepath || force then
    match env.net url with
    | .transportError => ⟨fs, false, true⟩
    | .success status body =>
      if 400 ≤ status ∧ status < 600 then ⟨fs, false, true⟩
      else
        match fsWrite fs filepath (String.mk (extract_page_text body)) with
        | .error _ => ⟨fs, false, true⟩
        | .ok fs2 => ⟨fs2, true, true⟩
  else ⟨fs, true, false⟩

/-- `SpeechDownloader.save_transcript`: a bare write with no exception
handling, returning `True` after a successful write; a failing write
propagates the `OSError` to the caller. -/
def save_transcript (fs : FS) (outputDir foldername filename text : String) :
    Except PyErr (FS × Bool) :=
  (fsWrite fs (outputDir, foldername, filename) text).map (fun fs2 => (fs2, true))

/-- Python `str.capitalize()`: first character uppercased, the rest
lowercased. -/
def pyCapitalize : Text → Text
  | [] => []
  | c :: cs => c.toUpper :: cs.map Char.toLower

/-- The inline-record filename derivation of `download_all_speeches`:
`str(title).replace("/", "-").replace(":", "_").lower().capitalize()
.replace(" ", "_") + ".txt"`. -/
def deriveInlineFilename (title : String) : String :=
  let t1 := title.data.map (fun c => if c = '/' then '-' else c)
  let t2 := t1.map (fun c => if c = ':' then '_' else c)
  let t3 := pyCapitalize (t2.map Char.toLower)
  String.mk (t3.map (fun c => if c = ' ' then '_' else c)) ++ ".txt"

/-- One record of an inline-list category, holding the results of
`transcribe.get("title", None)` and `transcribe.get("transcript", None)`. -/
structure InlineRec where
  titleOpt : Option String
  transcriptOpt : Option String

/-- The value of one category of the catalog: either an ordered sequence of
inline records or a filename-to-URL mapping (`isinstance(files, list)`
decides the branch). -/
inductive CatValue where
  | inlineList (recs : List InlineRec)
  | urlMap (entries : List (String × String))

/-- The catalog: politicians in order, each with its ordered categories. -/
abbrev Catalog := List (String × List (String × CatValue))

/-- `os.path.join` for a relative second component. -/
def pathJoin (a b : String) : String :=
  a ++ "/" ++ b

/-- The orchestrator's output-directory selection
`[direc for direc in self.output_dirs if politician in direc][0]`: the
first directory containing the politician's name as a substring; `none`
models the `IndexError` on an empty selection. -/
def pickOutputDir (dirs : List String) (politician : String) : Option String :=
  (dirs.filter (fun d => containsL d.data politician.data)).head?

/-- The inline-list branch of `download_all_speeches`: records missing
`title` or `transcript` are skipped silently; otherwise the transcript is
written via `save_transcript` (whose exceptions are not caught here) and
`successful` is incremented when it returns `True`. -/
def processInline (outputDir foldername : String) :
    List InlineRec → FS → Nat → Except PyErr (FS × Nat)
  | [], fs, succ => .ok (fs, succ)
  | r :: rest, fs, succ =>
    match r.titleOpt, r.transcriptOpt with
    | some title, some transcript =>
      match save_transcript fs outputDir foldername
          (deriveInlineFilename title) transcript with
      | .error e => .error e
      | .ok (fs2, saved) =>
        processInline outputDir foldername rest fs2
          (if saved then succ + 1 else succ)
    | _, _ => processInline outputDir foldername rest fs succ

/-- The URL-map branch of `download_all_speeches`: each entry goes through
`download_page`, whose Boolean feeds the success/failure counters; the
scanner also counts issued network requests.  (The `time.sleep` between
requests has no observable effect in this model.) -/
def processUrlMap (env : Env) (outputDir foldername : String) (force : Bool) :
    List (String × String) → FS → Nat → Nat → Nat → FS × Nat × Nat × Nat
  | [], fs, succ, failed, fetches => (fs, succ, failed, fetches)
  | (filename, url) :: rest, fs, succ, failed, fetches =>
    let r := download_page env fs url foldername filename outputDir force
    processUrlMap env outputDir foldername force rest r.fs
      (if r.ok then succ + 1 else succ)
      (if r.ok then failed else failed + 1)
      (fetches + (if r.fetched then 1 else 0))

/-- The per-politician category loop, threading the success/failure/fetch
counters across categories.  (Directory creation is modelled as a no-op: the
filesystem model tracks files only.) -/
def processCategories (env : Env) (outputDir : String) (force : Bool) :
    List (String × CatValue) → FS → Nat → Nat → Nat →
    Except PyErr (FS × Nat × Nat × Nat)
  | [], fs, succ, failed, fetches => .ok (fs, succ, failed, fetches)
  | (foldername, v) :: rest, fs, succ, failed, fetches =>
    match v with
    | .inlineList recs =>
      match processInline outputDir foldername recs fs succ with
      | .error e => .error e
      | .ok (fs2, succ2) =>
        processCategories env outputDir force rest fs2 succ2 failed fetches
    | .urlMap entries =>
      match processUrlMap env outputDir foldername force entries fs succ
          failed fetches with
      | (fs2, succ2, failed2, fetches2) =>
        processCategories env outputDir force rest fs2 succ2 failed2 fetches2

/-- The politician loop: each politician starts with fresh counters, and the
per-politician totals are appended to the two summary dictionaries in
iteration order. -/
def goPoliticians (env : Env) (outputDirs : List String) (force : Bool) :
    Catalog → FS →
    Except PyErr (FS × List (String × Nat) × List (String × Nat) × Nat)
  | [], fs => .ok (fs, [], [], 0)
  | (politician, cats) :: rest, fs =>
    match pickOutputDir outputDirs politician with
    | none => .error .indexError
    | some outputDir =>
      match processCategories env outputDir force cats fs 0 0 0 with
      | .error e => .error e
      | .ok (fs2, succ, failed, fetches) =>
        match goPoliticians env outputDirs force rest fs2 with
        | .error e => .error e
        | .ok (fs3, summS, summF, fetchesRest) =>
          .ok (fs3, (politician, succ) :: summS,
               (politician, failed) :: summF, fetches + fetchesRest)

/-- What one `download_all_speeches` run leaves behind.  The Python method
body ends with the summary print loop and has no `return` statement, so its
return value is `None`; the field `returned` records that value (it would
hold the per-politician `(successful, failed)` mapping if the method
returned one). -/
structure RunResult where
  fs : FS
  summarySuccessful : List (String × Nat)
  summaryFails : List (String × Nat)
  fetches : Nat
  returned : Option (List (String × Nat × Nat))

/-- `SpeechDownloader.download_all_speeches`: the output directories are the
per-politician folders under the raw-data root (as built in `__init__`), the
politician loop accumulates and prints the two summary dictionaries, and the
method returns `None`. -/
def download_all_speeches (env : Env) (rawDataDir : String)
    (catalog : Catalog) (fs : FS) (force : Bool) : Except PyErr RunResult :=
  let outputDirs := catalog.map (fun pc => pathJoin rawDataDir pc.1)
  (goPoliticians env outputDirs force catalog fs).map
    (fun r => { fs := r.1, summarySuccessful := r.2.1,
                summaryFails := r.2.2.1, fetches := r.2.2.2,
                returned := none })

/-! ## Derived predicates and concrete scenarios used by the theorems -/

/-- Does one category use the URL-map shape? -/
def catIsUrlMap (cv : String × CatValue) : Bool :=
  match cv.2 with
  | .urlMap _ => true
  | .inlineList _ => false

/-- Does every category of the catalog use the URL-map shape? -/
def allUrlMap (catalog : Catalog) : Bool :=
  catalog.all (fun pc => pc.2.all catIsUrlMap)

/-- Total number of URL-map items of one politician's categories. -/
def numUrlItems (cats : List (String × CatValue)) : Nat :=
  (cats.map (fun cv =>
    match cv.2 with
    | .urlMap es => es.length
    | .inlineList _ => 0)).sum

/-- Does every URL-map item of one category have its target file present? -/
def catPopulated (outputDir : String) (fs : FS) (cv : String × CatValue) :
    Bool :=
  match cv.2 with
  | .inlineList _ => true
  | .urlMap es => es.all (fun e => fsExists fs (outputDir, cv.1, e.1))

/-- Every URL-map item's target file (at the path the orchestrator computes
from the given output directories) already exists in `fs`. -/
def populatedWith (outputDirs : List String) (catalog : Catalog) (fs : FS) :
    Bool :=
  catalog.all (fun pc =>
    match pickOutputDir outputDirs pc.1 with
    | none => false
    | some od => pc.2.all (catPopulated od fs))

/-- A directory fully populated for a run rooted at `rawDataDir`. -/
def fullyPopulated (rawDataDir : String) (catalog : Catalog) (fs : FS) :
    Bool :=
  populatedWith (catalog.map (fun pc => pathJoin rawDataDir pc.1)) catalog fs

/-- A network on which every request fails at the transport level (the
inline-transcript scenarios never reach it). -/
def noNet : Env := ⟨fun _ => .transportError⟩

/-- The empty filesystem. -/
def emptyFS : FS := ⟨[], []⟩

/-- The spec's inline-transcript catalog, extended with a record whose
`transcript` field is missing. -/
def inlineCatalog : Catalog :=
  [("x", [("rally", .inlineList
    [⟨some "Test Rally Speech", some "Hello world"⟩,
     ⟨some "Skip me", none⟩])])]

/-- A one-paragraph response body. -/
def speechBody : Soup := .cons (.text "speech") .nil

/-- A network returning HTTP 500 for `u2` and HTTP 200 elsewhere. -/
def oneBadNet : Env :=
  ⟨fun u => if u = "u2" then .success 500 speechBody
            else .success 200 speechBody⟩

/-- A three-URL category for one politician. -/
def threeUrlCatalog : Catalog :=
  [("x", [("floor", .urlMap
    [("s1.txt", "u1"), ("s2.txt", "u2"), ("s3.txt", "u3")])])]

/-- A single-URL catalog. -/
def oneUrlCatalog : Catalog := [("x", [("c", .urlMap [("f.txt", "u")])])]

/-- A filesystem already holding the single URL item's target file. -/
def populatedFS : FS := ⟨[(("data/raw/x", "c", "f.txt"), "old body")], []⟩

/-- A filesystem where writing the inline record's target raises. -/
def badInlineFS : FS :=
  ⟨[], [("data/raw/x", "rally", "Test_rally_speech.txt")]⟩

/-- A filesystem where writing the URL item's target raises. -/
def badUrlFS : FS := ⟨[], [("data/raw/x", "c", "f.txt")]⟩

/-- A filesystem holding an old version of the inline record's target. -/
def staleInlineFS : FS :=
  ⟨[(("data/raw/x", "rally", "Test_rally_speech.txt"), "old")], []⟩

/-- What the inline-catalog demonstration run produces. -/
def inlineRunResult : RunResult :=
  ⟨⟨[(("data/raw/x", "rally", "Test_rally_speech.txt"), "Hello world")], []⟩,
   [("x", 1)], [("x", 0)], 0, none⟩

/-- What the populated single-URL demonstration run produces. -/
def oneUrlRunResult : RunResult :=
  ⟨populatedFS, [("x", 1)], [("x", 0)], 0, none⟩

/-- A parsed page holding both an `id="content"` element and a `<main>`
element with different texts. -/
def prioritySoup : Soup :=
  .cons (.elem "html" []
    (.cons (.elem "div" [("id", "content")] (.cons (.text "CONTENT TEXT") .nil))
      (.cons (.elem "main" [] (.cons (.text "MAIN TEXT") .nil)) .nil))) .nil

/-- The `id="content"` element of `prioritySoup`. -/
def priorityNode : Node :=
  .elem "div" [("id", "content")] (.cons (.text "CONTENT TEXT") .nil)

/-! ## Claim theorems -/

/-- C3: on the input `"Don't worry, visit http://x.com or email a@b.com.
Call 123 now!!!"` with every optional cleaning step enabled, `clean_text`
(fixed order: encoding fix, boilerplate removal, contraction expansion, URL
removal, email removal, special-character removal, number removal,
lowercasing, punctuation removal, whitespace collapse) returns exactly
`"do not worry visit or email call now"`. -/
theorem c3_clean_text_pipeline :
    clean_text allStepsOn
      "Don't worry, visit http://x.com or email a@b.com. Call 123 now!!!".data
      = "do not worry visit or email call now".data := by
  decide

/-- C9 counterexample: `fix_encoding` does not turn the ellipsis mojibake
`â€¦` into `"..."` — the earlier bare `â€ → "` table entry consumes its
first two characters, leaving `"¦`. -/
theorem c9_counterexample :
    fix_encoding "â€¦".data ≠ "...".data := by
  decide

/-- C9 amended: `fix_encoding` replaces `â€™` with an apostrophe, `â€œ` with
a double quote and `Â` with a space, and maps `"Donâ€™t"` to `"Don't"`; but
because the bare `â€ → "` entry is applied before the dash and ellipsis
entries, `â€"` becomes two double quotes and `â€¦` becomes `"¦` — never an
em/en dash or `"..."`. -/
theorem c9_amended :
    fix_encoding "Donâ€™t".data = "Don't".data ∧
    fix_encoding "â€™".data = "'".data ∧
    fix_encoding "â€œ".data = "\"".data ∧
    fix_encoding "Â".data = " ".data ∧
    fix_encoding "â€\"".data = "\"\"".data ∧
    fix_encoding "â€¦".data = "\"¦".data := by
  exact ⟨by decide, by decide, by decide, by decide, by decide, by decide⟩

/-- C10: `get_statistics` on the empty string performs no division: with the
word tokenizer returning no tokens (as NLTK's `word_tokenize("")` does), the
guarded expressions give `unique_words = 0` and `lexical_diversity = 0`. -/
theorem c10_get_statistics_empty
    (tokenizeF sentTokenizeF : Text → List Text)
    (h : tokenizeF "".data = []) :
    (get_statistics tokenizeF sentTokenizeF "".data).unique_words = 0 ∧
    (get_statistics tokenizeF sentTokenizeF "".data).lexical_diversity = 0 := by
  simp [get_statistics, h]

/-- C10 witness: the boundary claim instantiated with the empty-output
tokenizers. -/
theorem c10_witness :
    (get_statistics (fun _ => []) (fun _ => []) "".data).unique_words = 0 ∧
    (get_statistics (fun _ => []) (fun _ => []) "".data).lexical_diversity
      = 0 :=
  c10_get_statistics_empty (fun _ => []) (fun _ => []) rfl

/-- C4: with a 3-URL category where `u2` answers HTTP 500 and the others
HTTP 200, the two healthy entries are still fetched and written and the run
completes, reporting `successful = 2` and `failed = 1` for the
politician. -/
theorem c4_partial_failure :
    (download_all_speeches oneBadNet "data/raw" threeUrlCatalog emptyFS
        false).map
      (fun r => (r.summarySuccessful, r.summaryFails,
        lookupA r.fs.files ("data/raw/x", "floor", "s1.txt"),
        lookupA r.fs.files ("data/raw/x", "floor", "s2.txt"),
        lookupA r.fs.files ("data/raw/x", "floor", "s3.txt")))
      = .ok ([("x", 2)], [("x", 1)],
             some "speech", none, some "speech") := by
  rfl

/-- C7: the inline entry `{title: "Test Rally Speech", transcript: "Hello
world"}` under politician `x`, category `rally`, produces exactly the file
`x/rally/Test_rally_speech.txt` with content `"Hello world"`; the record
missing its transcript is silently skipped (exactly one file is written,
`successful = 1`, `failed = 0`). -/
theorem c7_inline_transcript :
    (download_all_speeches noNet "data/raw" inlineCatalog emptyFS false).map
      (fun r =>
        (lookupA r.fs.files ("data/raw/x", "rally", "Test_rally_speech.txt"),
         r.fs.files.length, r.summarySuccessful, r.summaryFails))
      = .ok (some "Hello world", 1, [("x", 1)], [("x", 0)]) := by
  rfl

/-- C1 counterexample: a concrete run of `download_all_speeches` completes
normally yet its return value is `None` — the per-politician
`DownloadOutcome` mapping is not returned. -/
theorem c1_counterexample :
    (download_all_speeches noNet "data/raw" inlineCatalog emptyFS false).map
      RunResult.returned = .ok none := by
  rfl

/-- C6 counterexample: `save_transcript` has no exception handling — on a
filesystem where the write fails it raises (`OSError` propagates to the
caller) instead of returning a failure status. -/
theorem c6_counterexample :
    save_transcript badInlineFS "data/raw/x" "rally" "Test_rally_speech.txt"
      "Hello world" = .error .ioError := by
  rfl

/-- C6 amended: `save_transcript` returns `True` whenever the write
succeeds, and propagates the exception when the write fails; consequently an
inline-path write failure aborts the whole `download_all_speeches` run,
while a URL-path write failure is caught inside `download_page`'s `try` and
is only counted as a failure. -/
theorem c6_amended :
    (∀ (fs : FS) (outputDir foldername filename text : String),
      fs.badPaths.contains (outputDir, foldername, filename) = false →
      save_transcript fs outputDir foldername filename text =
        .ok ({ fs with
                files := ((outputDir, foldername, filename), text) :: fs.files },
             true)) ∧
    download_all_speeches noNet "data/raw" inlineCatalog badInlineFS false
      = .error .ioError ∧
    (download_all_speeches oneBadNet "data/raw" oneUrlCatalog badUrlFS
        false).map (fun r => (r.summarySuccessful, r.summaryFails))
      = .ok ([("x", 0)], [("x", 1)]) := by
  refine ⟨?_, by rfl, by rfl⟩
  intro fs outputDir foldername filename text h
  simp only [save_transcript, fsWrite]
  rw [if_neg (by simpa using h)]
  rfl

/-- C6 witness: the amended write contract applied on the empty
filesystem. -/
theorem c6_witness :
    save_transcript emptyFS "data/raw/x" "rally" "f.txt" "hi" =
      .ok ({ emptyFS with
              files := [(("data/raw/x", "rally", "f.txt"), "hi")] }, true) :=
  c6_amended.1 emptyFS "data/raw/x" "rally" "f.txt" "hi" rfl

/-- C8 counterexample: a file written by an earlier run and targeted by an
inline-transcript entry is overwritten by a run without the force flag — its
content changes from `"old"` to `"Hello world"`. -/
theorem c8_counterexample :
    (download_all_speeches noNet "data/raw" inlineCatalog staleInlineFS
        false).map
      (fun r =>
        lookupA r.fs.files ("data/raw/x", "rally", "Test_rally_speech.txt"))
      = .ok (some "Hello world") ∧ ("Hello world" : String) ≠ "old" := by
  exact ⟨by rfl, by decide⟩

/-! ## Helper lemmas -/

/-- When the target file exists and the force flag is unset, `download_page`
issues no request, leaves the filesystem unchanged and returns `True`. -/
theorem download_page_skip (env : Env) (fs : FS)
    (url foldername filename outputDir : String)
    (h : fsExists fs (outputDir, foldername, filename) = true) :
    download_page env fs url foldername filename outputDir false
      = ⟨fs, true, false⟩ := by
  simp [download_page, h]

/-- On a fully-present URL list, `processUrlMap` without the force flag
skips every entry: the filesystem and failure/fetch counters are untouched
and every entry counts as successful. -/
theorem processUrlMap_populated (env : Env) (outputDir foldername : String)
    (es : List (String × String)) (fs : FS) :
    ∀ succ failed fetches : Nat,
    es.all (fun e => fsExists fs (outputDir, foldername, e.1)) = true →
    processUrlMap env outputDir foldername false es fs succ failed fetches
      = (fs, succ + es.length, failed, fetches) := by
  induction es with
  | nil => intro succ failed fetches _; simp [processUrlMap]
  | cons e rest ih =>
    intro succ failed fetches h
    obtain ⟨fn, url⟩ := e
    simp only [List.all_cons, Bool.and_eq_true] at h
    rw [processUrlMap, download_page_skip env fs url foldername fn outputDir h.1]
    show processUrlMap env outputDir foldername false rest fs (succ + 1) failed
        (fetches + 0) = (fs, succ + ((fn, url) :: rest).length, failed, fetches)
    rw [ih (succ + 1) failed (fetches + 0) h.2, List.length_cons,
      Nat.add_assoc, Nat.add_comm 1 rest.length]
    simp

/-- On URL-map-only, fully-present categories, `processCategories` without
the force flag succeeds, leaves the filesystem and the failure/fetch
counters untouched, and adds every URL item to the success counter. -/
theorem processCategories_populated (env : Env) (outputDir : String)
    (cats : List (String × CatValue)) (fs : FS) :
    ∀ succ failed fetches : Nat,
    cats.all catIsUrlMap = true →
    cats.all (catPopulated outputDir fs) = true →
    processCategories env outputDir false cats fs succ failed fetches
      = .ok (fs, succ + numUrlItems cats, failed, fetches) := by
  induction cats with
  | nil => intro succ failed fetches _ _; simp [processCategories, numUrlItems]
  | cons c rest ih =>
    intro succ failed fetches hurl hpop
    obtain ⟨foldername, v⟩ := c
    simp only [List.all_cons, Bool.and_eq_true] at hurl hpop
    cases v with
    | inlineList recs => simpa [catIsUrlMap] using hurl.1
    | urlMap es =>
      have hes : es.all (fun e => fsExists fs (outputDir, foldername, e.1))
          = true := by simpa [catPopulated] using hpop.1
      rw [processCategories,
        processUrlMap_populated env outputDir foldername es fs succ failed
          fetches hes]
      show processCategories env outputDir false rest fs (succ + es.length)
          failed fetches = Except.ok
            (fs, succ + numUrlItems ((foldername, CatValue.urlMap es) :: rest),
             failed, fetches)
      rw [ih (succ + es.length) failed fetches hurl.2 hpop.2]
      have hn : numUrlItems ((foldername, CatValue.urlMap es) :: rest)
          = es.length + numUrlItems rest := by simp [numUrlItems]
      rw [hn, ← Nat.add_assoc]

/-- On a URL-map-only, fully-populated catalog, the politician loop without
the force flag succeeds with zero fetches, an unchanged filesystem, all
items successful and zero failures. -/
theorem goPoliticians_populated (env : Env) (outputDirs : List String)
    (catalog : Catalog) (fs : FS)
    (hurl : allUrlMap catalog = true)
    (hpop : populatedWith outputDirs catalog fs = true) :
    goPoliticians env outputDirs false catalog fs
      = .ok (fs, catalog.map (fun pc => (pc.1, numUrlItems pc.2)),
             catalog.map (fun pc => (pc.1, 0)), 0) := by
  induction catalog with
  | nil => simp [goPoliticians]
  | cons pc rest ih =>
    obtain ⟨p, cats⟩ := pc
    simp only [allUrlMap, populatedWith, List.all_cons, Bool.and_eq_true]
      at hurl hpop
    cases hp : pickOutputDir outputDirs p with
    | none => rw [hp] at hpop; exact absurd hpop.1 (by simp)
    | some od =>
      simp only [hp] at hpop
      rw [goPoliticians]
      simp only [hp,
        processCategories_populated env od cats fs 0 0 0 hurl.1 hpop.1,
        ih hurl.2 hpop.2]
      simp

/-- Without the force flag, one `download_page` call never changes the
content stored at an already-existing path: it either skips, fails without
writing, or writes to a path that did not exist before. -/
theorem download_page_preserves (env : Env) (fs : FS)
    (url foldername filename outputDir : String) (p : PathT)
    (hp : fsExists fs p = true) :
    lookupA (download_page env fs url foldername filename outputDir
      false).fs.files p = lookupA fs.files p := by
  unfold download_page
  cases hex : fsExists fs (outputDir, foldername, filename) with
  | true => simp [hex]
  | false =>
    have hne : p ≠ (outputDir, foldername, filename) := by
      intro he
      rw [he, hex] at hp
      exact Bool.false_ne_true hp
    simp only [hex, Bool.not_false, Bool.true_or, if_pos rfl]
    cases env.net url with
    | transportError => rfl
    | success status body =>
      by_cases hst : 400 ≤ status ∧ status < 600
      · simp [hst]
      · simp only [hst, if_false]
        unfold fsWrite
        cases hbad : fs.badPaths.contains (outputDir, foldername, filename) with
        | true => simp [hbad]
        | false => simp [hbad, lookupA, hne]

/-- `processUrlMap` without the force flag preserves the content of every
already-existing file. -/
theorem processUrlMap_preserves (env : Env) (outputDir foldername : String)
    (es : List (String × String)) :
    ∀ (fs : FS) (succ failed fetches : Nat) (p : PathT),
    fsExists fs p = true →
    lookupA (processUrlMap env outputDir foldername false es fs succ failed
      fetches).1.files p = lookupA fs.files p := by
  induction es with
  | nil => intro fs succ failed fetches p _; simp [processUrlMap]
  | cons e rest ih =>
    intro fs succ failed fetches p hp
    obtain ⟨fn, url⟩ := e
    have h1 := download_page_preserves env fs url foldername fn outputDir p hp
    have hp2 : fsExists
        (download_page env fs url foldername fn outputDir false).fs p
          = true := by
      unfold fsExists at hp ⊢
      rw [h1]
      exact hp
    rw [processUrlMap, ih _ _ _ _ p hp2, h1]

/-- `processCategories` on URL-map-only categories without the force flag
preserves the content of every already-existing file. -/
theorem processCategories_preserves (env : Env) (outputDir : String)
    (cats : List (String × CatValue)) :
    ∀ (fs : FS) (succ failed fetches : Nat)
      (out : FS × Nat × Nat × Nat) (p : PathT),
    cats.all catIsUrlMap = true →
    processCategories env outputDir false cats fs succ failed fetches
      = .ok out →
    fsExists fs p = true →
    lookupA out.1.files p = lookupA fs.files p := by
  induction cats with
  | nil =>
    intro fs succ failed fetches out p _ hout hp
    simp only [processCategories, Except.ok.injEq] at hout
    rw [← hout]
  | cons c rest ih =>
    intro fs succ failed fetches out p hurl hout hp
    obtain ⟨foldername, v⟩ := c
    simp only [List.all_cons, Bool.and_eq_true] at hurl
    cases v with
    | inlineList recs => simpa [catIsUrlMap] using hurl.1
    | urlMap es =>
      rw [processCategories] at hout
      rcases hq : processUrlMap env outputDir foldername false es fs succ
        failed fetches with ⟨fs2, succ2, failed2, fetches2⟩
      simp only [hq] at hout
      have h1 := processUrlMap_preserves env outputDir foldername es fs succ
        failed fetches p hp
      rw [hq] at h1
      have hp2 : fsExists fs2 p = true := by
        unfold fsExists at hp ⊢
        rw [h1]
        exact hp
      rw [ih fs2 succ2 failed2 fetches2 out p hurl.2 hout hp2]
      exact h1

/-- The politician loop on a URL-map-only catalog without the force flag
preserves the content of every already-existing file. -/
theorem goPoliticians_preserves (env : Env) (outputDirs : List String)
    (catalog : Catalog) :
    ∀ (fs : FS)
      (out : FS × List (String × Nat) × List (String × Nat) × Nat)
      (p : PathT),
    allUrlMap catalog = true →
    goPoliticians env outputDirs false catalog fs = .ok out →
    fsExists fs p = true →
    lookupA out.1.files p = lookupA fs.files p := by
  induction catalog with
  | nil =>
    intro fs out p _ hout hp
    simp only [goPoliticians, Except.ok.injEq] at hout
    rw [← hout]
  | cons pc rest ih =>
    intro fs out p hurl hout hp
    obtain ⟨politician, cats⟩ := pc
    simp only [allUrlMap, List.all_cons, Bool.and_eq_true] at hurl
    rw [goPoliticians] at hout
    cases hpick : pickOutputDir outputDirs politician with
    | none => simp only [hpick] at hout; exact absurd hout (by simp)
    | some od =>
      simp only [hpick] at hout
      cases hcat : processCategories env od false cats fs 0 0 0 with
      | error e => simp only [hcat] at hout; exact absurd hout (by simp)
      | ok q =>
        obtain ⟨fs2, succ2, failed2, fetches2⟩ := q
        simp only [hcat] at hout
        have h1 := processCategories_preserves env od cats fs 0 0 0
          (fs2, succ2, failed2, fetches2) p hurl.1 hcat hp
        have hp2 : fsExists fs2 p = true := by
          unfold fsExists at hp ⊢
          rw [h1]
          exact hp
        cases hgo : goPoliticians env outputDirs false rest fs2 with
        | error e => simp only [hgo] at hout; exact absurd hout (by simp)
        | ok w =>
          obtain ⟨fs3, ss, ff, fr⟩ := w
          simp only [hgo, Except.ok.injEq] at hout
          have h2 := ih fs2 (fs3, ss, ff, fr) p hurl.2 hgo hp2
          rw [← hout]
          exact h2.trans h1

/-- The summaries built by the politician loop list exactly the catalog's
politicians, in order. -/
theorem goPoliticians_summary_keys (env : Env) (outputDirs : List String)
    (force : Bool) (catalog : Catalog) :
    ∀ (fs : FS)
      (out : FS × List (String × Nat) × List (String × Nat) × Nat),
    goPoliticians env outputDirs force catalog fs = .ok out →
    out.2.1.map Prod.fst = catalog.map Prod.fst ∧
    out.2.2.1.map Prod.fst = catalog.map Prod.fst := by
  induction catalog with
  | nil =>
    intro fs out hout
    simp only [goPoliticians, Except.ok.injEq] at hout
    rw [← hout]
    simp
  | cons pc rest ih =>
    intro fs out hout
    obtain ⟨politician, cats⟩ := pc
    rw [goPoliticians] at hout
    cases hpick : pickOutputDir outputDirs politician with
    | none => simp only [hpick] at hout; exact absurd hout (by simp)
    | some od =>
      simp only [hpick] at hout
      cases hcat : processCategories env od force cats fs 0 0 0 with
      | error e => simp only [hcat] at hout; exact absurd hout (by simp)
      | ok q =>
        obtain ⟨fs2, succ2, failed2, fetches2⟩ := q
        simp only [hcat] at hout
        cases hgo : goPoliticians env outputDirs force rest fs2 with
        | error e => simp only [hgo] at hout; exact absurd hout (by simp)
        | ok w =>
          obtain ⟨fs3, ss, ff, fr⟩ := w
          simp only [hgo, Except.ok.injEq] at hout
          have h2 := ih fs2 (fs3, ss, ff, fr) hgo
          rw [← hout]
          simp only [List.map_cons]
          exact ⟨by simpa using h2.1, by simpa using h2.2⟩

/-! ## Remaining claim theorems -/

/-- C2: an existing target with the force flag unset makes `download_page`
skip the fetch and report success; consequently a full run over a URL-map
catalog against a fully-populated directory issues zero network requests,
changes nothing on disk, and reports every item successful with zero
failures. -/
theorem c2_skip_and_idempotent :
    (∀ (env : Env) (fs : FS) (url foldername filename outputDir : String),
      fsExists fs (outputDir, foldername, filename) = true →
      download_page env fs url foldername filename outputDir false
        = ⟨fs, true, false⟩) ∧
    (∀ (env : Env) (rawDataDir : String) (catalog : Catalog) (fs : FS),
      allUrlMap catalog = true →
      fullyPopulated rawDataDir catalog fs = true →
      download_all_speeches env rawDataDir catalog fs false
        = .ok ⟨fs, catalog.map (fun pc => (pc.1, numUrlItems pc.2)),
               catalog.map (fun pc => (pc.1, 0)), 0, none⟩) := by
  constructor
  · exact download_page_skip
  · intro env rawDataDir catalog fs hurl hpop
    unfold fullyPopulated at hpop
    unfold download_all_speeches
    dsimp only
    rw [goPoliticians_populated env
      (catalog.map (fun pc => pathJoin rawDataDir pc.1)) catalog fs hurl hpop]
    rfl

/-- C2 witness: the skip contract and the idempotent full run on the
populated single-URL scenario. -/
theorem c2_witness :
    download_page noNet populatedFS "u" "c" "f.txt" "data/raw/x" false
      = ⟨populatedFS, true, false⟩ ∧
    download_all_speeches noNet "data/raw" oneUrlCatalog populatedFS false
      = .ok ⟨populatedFS, [("x", 1)], [("x", 0)], 0, none⟩ :=
  ⟨c2_skip_and_idempotent.1 noNet populatedFS "u" "c" "f.txt" "data/raw/x"
      (by rfl),
   c2_skip_and_idempotent.2 noNet "data/raw" oneUrlCatalog populatedFS
      (by rfl) (by rfl)⟩

/-- C5: after the boilerplate tags are removed, if no element has
`id="main-content"` but some element has `id="content"`, the selector chain
stops at the `id="content"` element and the extraction returns its text —
any `<main>` element is never consulted because its selector comes last. -/
theorem c5_selector_priority (soup : Soup) (n : Node)
    (h1 : findList (matchesSel "id" "main-content")
        (stripList removedTags soup) = none)
    (h2 : findList (matchesSel "id" "content")
        (stripList removedTags soup) = some n) :
    extract_page_text soup = tidyLines (nodeText n) := by
  unfold extract_page_text
  have hsel : selectContent (stripList removedTags soup) = some n := by
    unfold selectContent content_selectors
    simp only [List.foldl, h1, h2]
  dsimp only
  rw [hsel]

/-- C5 witness: on a page holding both an `id="content"` element and a
`<main>` element with different text, extraction returns the
`id="content"` text. -/
theorem c5_witness :
    extract_page_text prioritySoup = "CONTENT TEXT".data ∧
    ("CONTENT TEXT".data : Text) ≠ "MAIN TEXT".data := by
  constructor
  · rw [c5_selector_priority prioritySoup priorityNode (by rfl) (by rfl)]
    rfl
  · decide

/-- C8 amended: a run without the force flag never changes the content of
an already-existing raw file as long as the catalog is URL-map only — but
inline-transcript entries overwrite their targets on every run (see the
counterexample), so the frame property holds only for URL-map entries. -/
theorem c8_amended (env : Env) (rawDataDir : String) (catalog : Catalog)
    (fs : FS) (r : RunResult) (p : PathT)
    (hurl : allUrlMap catalog = true)
    (hrun : download_all_speeches env rawDataDir catalog fs false = .ok r)
    (hex : fsExists fs p = true) :
    lookupA r.fs.files p = lookupA fs.files p := by
  unfold download_all_speeches at hrun
  dsimp only at hrun
  cases hgo : goPoliticians env
      (catalog.map (fun pc => pathJoin rawDataDir pc.1)) false catalog fs with
  | error e => rw [hgo] at hrun; exact absurd hrun (by simp [Except.map])
  | ok out =>
    rw [hgo] at hrun
    simp only [Except.map, Except.ok.injEq] at hrun
    have h1 := goPoliticians_preserves env
      (catalog.map (fun pc => pathJoin rawDataDir pc.1)) catalog fs out p
      hurl hgo hex
    rw [← hrun]
    exact h1

/-- C8 witness: the URL-map preservation applied to the populated
single-URL run. -/
theorem c8_witness :
    lookupA oneUrlRunResult.fs.files ("data/raw/x", "c", "f.txt")
      = lookupA populatedFS.files ("data/raw/x", "c", "f.txt") :=
  c8_amended noNet "data/raw" oneUrlCatalog populatedFS oneUrlRunResult
    ("data/raw/x", "c", "f.txt") (by rfl) (by rfl) (by rfl)

/-- C1 amended: `download_all_speeches` accumulates the per-politician
success and failure counts and exposes them only through the printed
summaries (which list every politician of the catalog, in order); its
return value is `None`, so the counts are not available as a return
value. -/
theorem c1_amended (env : Env) (rawDataDir : String) (catalog : Catalog)
    (fs : FS) (force : Bool) (r : RunResult)
    (hrun : download_all_speeches env rawDataDir catalog fs force = .ok r) :
    r.returned = none ∧
    r.summarySuccessful.map Prod.fst = catalog.map Prod.fst ∧
    r.summaryFails.map Prod.fst = catalog.map Prod.fst := by
  unfold download_all_speeches at hrun
  dsimp only at hrun
  cases hgo : goPoliticians env
      (catalog.map (fun pc => pathJoin rawDataDir pc.1)) force catalog fs with
  | error e => rw [hgo] at hrun; exact absurd hrun (by simp [Except.map])
  | ok out =>
    rw [hgo] at hrun
    simp only [Except.map, Except.ok.injEq] at hrun
    have h2 := goPoliticians_summary_keys env
      (catalog.map (fun pc => pathJoin rawDataDir pc.1)) force catalog fs out
      hgo
    rw [← hrun]
    exact ⟨rfl, h2.1, h2.2⟩

/-- C1 witness: the amended return contract on the inline-catalog run. -/
theorem c1_witness :
    inlineRunResult.returned = none ∧
    inlineRunResult.summarySuccessful.map Prod.fst
      = inlineCatalog.map Prod.fst ∧
    inlineRunResult.summaryFails.map Prod.fst
      = inlineCatalog.map Prod.fst :=
  c1_amended noNet "data/raw" inlineCatalog emptyFS false inlineRunResult
    (by rfl)

end Spec2Proof
